import Mathlib

/-!
Shallow embedding of the mask-visualization logic of
pytorch-segmentation.ipynb: the helper display_segmentation, which maps a
per-pixel class-prediction tensor to a semi-transparent colored overlay on
top of the original image.  The imaging-library primitives the helper calls
(fromarray, resize, putpalette, putalpha, convert, alpha_composite) are
modelled here with their documented integer semantics; the resampling
filter used by resize is floating-point library code and is abstracted as a
parameter, so every theorem below holds for an arbitrary filter.
-/

namespace Seg

/-- An RGB color triple, one byte per channel. -/
structure Color3 where
  r : Nat
  g : Nat
  b : Nat
deriving DecidableEq

/-- An RGBA color, one byte per channel. -/
structure RGBAColor where
  r : Nat
  g : Nat
  b : Nat
  a : Nat
deriving DecidableEq

/-- A 2-D integer tensor, indexed row-major as val y x.  Models the
argmax prediction tensor handed to display_segmentation. -/
structure Tensor2 where
  height : Nat
  width : Nat
  val : Nat → Nat → Nat

/-- Model of Tensor.byte(): cast every entry to unsigned 8-bit, that is,
reduce it mod 256. -/
def Tensor2.byte (t : Tensor2) : Tensor2 :=
  ⟨t.height, t.width, fun y x => t.val y x % 256⟩

/-- A single-band image (PIL mode L), one byte per pixel. -/
structure GrayImage where
  width : Nat
  height : Nat
  pix : Nat → Nat → Nat

/-- A palette image (PIL mode P): byte-valued pixels that index a
256-entry color table. -/
structure PalImage where
  width : Nat
  height : Nat
  pix : Nat → Nat → Nat
  palette : Nat → Color3

/-- An RGB raster image. -/
structure RGBImage where
  width : Nat
  height : Nat
  pix : Nat → Nat → Color3

/-- An RGBA raster image. -/
structure RGBAImage where
  width : Nat
  height : Nat
  pix : Nat → Nat → RGBAColor

/-- Model of Image.fromarray on an (H, W) uint8 array: a mode-L image of
width W and height H whose pixels are the array entries. -/
def fromarray (t : Tensor2) : GrayImage :=
  ⟨t.width, t.height, fun y x => t.val y x⟩

/-- A resampling filter: given the source image and the target size, it
yields the pixel value at (y, x) of the resized image.  The default
bicubic filter of the imaging library is floating-point code outside this
repository; the development is parametric in the filter. -/
abbrev ResampleFilter : Type :=
  GrayImage → Nat × Nat → Nat → Nat → Nat

/-- Model of Image.resize on a mode-L image.  The library first
short-circuits when the requested size equals the current size, returning
a copy of the image; it then rejects a target width or height below 1
(the C layer raises a ValueError saying height and width must be
positive); otherwise it runs the resampling filter at the new size. -/
def GrayImage.resize (img : GrayImage) (size : Nat × Nat)
    (f : ResampleFilter) : Option GrayImage :=
  if img.width = size.1 ∧ img.height = size.2 then
    some img
  else if size.1 = 0 ∨ size.2 = 0 then
    none
  else
    some ⟨size.1, size.2, fun y x => f img size y x⟩

/-- Model of Image.putpalette on a mode-L image: the image becomes mode P
with the given colors as the first entries of its color table; the
remaining entries of the 256-entry table keep their initial value,
black. -/
def GrayImage.putpalette (img : GrayImage) (cs : List Color3) : PalImage :=
  ⟨img.width, img.height, img.pix, fun v => cs.getD v ⟨0, 0, 0⟩⟩

/-- Model of Image.copy on an RGB image: a fresh image with identical
content. -/
def RGBImage.copy (img : RGBImage) : RGBImage :=
  ⟨img.width, img.height, img.pix⟩

/-- Model of Image.putalpha on an RGB image: the image is converted in
place to RGBA, with the given constant as its alpha band. -/
def RGBImage.putalpha (img : RGBImage) (a : Nat) : RGBAImage :=
  ⟨img.width, img.height, fun y x =>
    ⟨(img.pix y x).r, (img.pix y x).g, (img.pix y x).b, a⟩⟩

/-- Model of Image.convert to RGBA on a palette image: every pixel index
is looked up in the color table, and the alpha channel starts fully
opaque. -/
def PalImage.convertRGBA (img : PalImage) : RGBAImage :=
  ⟨img.width, img.height, fun y x =>
    let c := img.palette (img.pix y x)
    ⟨c.r, c.g, c.b, 255⟩⟩

/-- Model of Image.putalpha on an RGBA image: replace the alpha band by
the given constant. -/
def RGBAImage.putalpha (img : RGBAImage) (a : Nat) : RGBAImage :=
  ⟨img.width, img.height, fun y x => { img.pix y x with a := a }⟩

/-- Approximate division by 255 as the library computes it:
((a >>> 8) + a) >>> 8. -/
def shiftForDiv255 (a : Nat) : Nat :=
  ((a >>> 8) + a) >>> 8

/-- Model of the per-pixel integer alpha blend of Image.alpha_composite
(file AlphaComposite.c of the imaging library, 7 bits of precision):
coefficients are src.a * 255 * 255 * 128 / outa255 and its complement to
255 * 128, applied to the channels with round-to-nearest. -/
def alphaCompositePixel (dst src : RGBAColor) : RGBAColor :=
  if src.a = 0 then
    dst
  else if src.a = 255 then
    src
  else
    let blend := dst.a * (255 - src.a)
    let outa255 := src.a * 255 + blend
    let coef1 := src.a * 255 * 255 * 128 / outa255
    let coef2 := 255 * 128 - coef1
    ⟨shiftForDiv255 (src.r * coef1 + dst.r * coef2 + 128 * 128) >>> 7,
     shiftForDiv255 (src.g * coef1 + dst.g * coef2 + 128 * 128) >>> 7,
     shiftForDiv255 (src.b * coef1 + dst.b * coef2 + 128 * 128) >>> 7,
     shiftForDiv255 (outa255 + 128)⟩

/-- Model of Image.alpha_composite: both images must have the same size
(the library raises a ValueError otherwise); the result blends the source
over the destination pixelwise. -/
def alpha_composite (dst src : RGBAImage) : Option RGBAImage :=
  if dst.width = src.width ∧ dst.height = src.height then
    some ⟨dst.width, dst.height, fun y x =>
      alphaCompositePixel (dst.pix y x) (src.pix y x)⟩
  else
    none

/-- The per-channel multiplier constants of display_segmentation:
torch.tensor([2 ** 25 - 1, 2 ** 15 - 1, 2 ** 21 - 1]). -/
def palette : List Nat := [2 ^ 25 - 1, 2 ^ 15 - 1, 2 ^ 21 - 1]

/-- The color table built by display_segmentation: for each class index i
in range(21), the channel values (i * palette[c]) % 255, cast to uint8
(the mod-255 residue is below 256, so the cast keeps it unchanged). -/
def colors : List Color3 :=
  (List.range 21).map fun i =>
    ⟨(i * palette.getD 0 0) % 255 % 256,
     (i * palette.getD 1 0) % 255 % 256,
     (i * palette.getD 2 0) % 255 % 256⟩

/-- Shallow embedding of display_segmentation from
pytorch-segmentation.ipynb.  The color table is the top-level definition
colors above; the resampling filter of the resize call is passed
explicitly.  The first component of the result is the returned composite
(none when an underlying library call fails); the remaining components
are the post-call contents of the two arguments, which the body never
mutates: the in-place calls (putpalette, putalpha) all target freshly
created images (the fromarray/resize result, the copy of the input image,
and the convert result), exactly as in the source. -/
def display_segmentation (f : ResampleFilter) (input_image : RGBImage)
    (output_predictions : Tensor2) :
    Option RGBAImage × RGBImage × Tensor2 :=
  match (fromarray output_predictions.byte).resize
      (input_image.width, input_image.height) f with
  | none => (none, input_image, output_predictions)
  | some r =>
    let r := r.putpalette colors
    let alpha_image := input_image.copy
    let alpha_image := alpha_image.putalpha 255
    let r := r.convertRGBA
    let r := r.putalpha 128
    let seg_image := alpha_composite alpha_image r
    (seg_image, input_image, output_predictions)

/-- The resized mask layer of display_segmentation: the byte-cast
prediction tensor, read as a mode-L image and resized to the size of the
base image. -/
def resizedMask (f : ResampleFilter) (b : RGBImage) (t : Tensor2) :
    Option GrayImage :=
  (fromarray t.byte).resize (b.width, b.height) f

/-- Attach a constant alpha to an RGB color. -/
def withAlpha (c : Color3) (a : Nat) : RGBAColor :=
  ⟨c.r, c.g, c.b, a⟩

/-- Pointwise description of the composite that display_segmentation
builds from a base image and a resized mask. -/
def compositeOf (b : RGBImage) (msk : GrayImage) : RGBAImage :=
  ⟨b.width, b.height, fun y x =>
    alphaCompositePixel (withAlpha (b.pix y x) 255)
      (withAlpha (colors.getD (msk.pix y x) ⟨0, 0, 0⟩) 128)⟩

theorem resize_size (img : GrayImage) (size : Nat × Nat)
    (f : ResampleFilter) (g : GrayImage)
    (h : GrayImage.resize img size f = some g) :
    g.width = size.1 ∧ g.height = size.2 := by
  unfold GrayImage.resize at h
  split at h
  · cases h
    next hc => exact ⟨hc.1, hc.2⟩
  · split at h
    · cases h
    · cases h
      exact ⟨rfl, rfl⟩

theorem composite_step (b : RGBImage) (msk : GrayImage)
    (hw : msk.width = b.width) (hh : msk.height = b.height) :
    alpha_composite ((b.copy).putalpha 255)
      (((msk.putpalette colors).convertRGBA).putalpha 128) =
      some (compositeOf b msk) := by
  unfold alpha_composite
  rw [if_pos]
  · rfl
  · exact ⟨hw.symm, hh.symm⟩

theorem display_eq (f : ResampleFilter) (b : RGBImage) (t : Tensor2) :
    (display_segmentation f b t).1 =
      Option.map (compositeOf b) (resizedMask f b t) := by
  unfold display_segmentation resizedMask
  cases hr : (fromarray t.byte).resize (b.width, b.height) f with
  | none => rfl
  | some r =>
    have hsz := resize_size _ _ _ _ hr
    show alpha_composite ((b.copy).putalpha 255)
        (((r.putpalette colors).convertRGBA).putalpha 128) =
        some (compositeOf b r)
    exact composite_step b r hsz.1 hsz.2

theorem display_isSome (f : ResampleFilter) (b : RGBImage) (t : Tensor2) :
    ((display_segmentation f b t).1).isSome = true ↔
      (t.width = b.width ∧ t.height = b.height) ∨
        (0 < b.width ∧ 0 < b.height) := by
  rw [display_eq]
  unfold resizedMask GrayImage.resize fromarray Tensor2.byte
  split
  · next hc =>
    have hc2 : t.width = b.width ∧ t.height = b.height := hc
    exact ⟨fun _ => Or.inl hc2, fun _ => rfl⟩
  · next hc =>
    have hc2 : ¬(t.width = b.width ∧ t.height = b.height) := hc
    split
    · next hz =>
      have hz2 : b.width = 0 ∨ b.height = 0 := hz
      constructor
      · intro h
        exact absurd h Bool.false_ne_true
      · intro hor
        rcases hor with hdim | hpos
        · exact absurd hdim hc2
        · omega
    · next hz =>
      have hz2 : ¬(b.width = 0 ∨ b.height = 0) := hz
      exact ⟨fun _ => Or.inr (by omega), fun _ => rfl⟩

/-- Concrete resampling filter used in the witnesses: always 0. -/
def wF : ResampleFilter := fun _ _ _ _ => 0

/-- Concrete 1 by 1 white base image used in the witnesses. -/
def wBase : RGBImage := ⟨1, 1, fun _ _ => ⟨255, 255, 255⟩⟩

/-- Concrete 1 by 1 all-zero prediction tensor used in the witnesses. -/
def wGrid : Tensor2 := ⟨1, 1, fun _ _ => 0⟩

/-- Concrete 0 by 0 prediction tensor (an empty label grid). -/
def wEmptyGrid : Tensor2 := ⟨0, 0, fun _ _ => 0⟩

/-- Concrete 1 by 1 all-zero gray image used in the witnesses. -/
def wGray : GrayImage := ⟨1, 1, fun _ _ => 0⟩

/-- Composite that display_segmentation returns on the witness inputs. -/
def wCmp : RGBAImage := compositeOf wBase (fromarray wGrid.byte)

/-- C1: for every class index i in 0..20, the palette generated by
display_segmentation assigns to i the RGB triple whose channel values are
(i * k) mod 255 for the per-channel constants k = 2^25 - 1, 2^15 - 1 and
2^21 - 1 respectively. -/
theorem palette_channel_values : ∀ i : Nat, i < 21 →
    colors.getD i ⟨0, 0, 0⟩ =
      ⟨(i * (2 ^ 25 - 1)) % 255,
       (i * (2 ^ 15 - 1)) % 255,
       (i * (2 ^ 21 - 1)) % 255⟩ := by
  decide

/-- Witness for C1 at the concrete class index 5. -/
theorem palette_channel_values_witness : 5 < 21 ∧
    colors.getD 5 ⟨0, 0, 0⟩ =
      ⟨(5 * (2 ^ 25 - 1)) % 255,
       (5 * (2 ^ 15 - 1)) % 255,
       (5 * (2 ^ 21 - 1)) % 255⟩ :=
  ⟨by decide, palette_channel_values 5 (by decide)⟩

/-- C4: the palette generated by display_segmentation assigns 21 pairwise
distinct RGB triples to the class indices 0..20. -/
theorem palette_distinct : colors.length = 21 ∧ colors.Nodup := by
  decide

/-- C2: every pixel of the composite produced by display_segmentation is
the deterministic alpha blend, at alpha 128 of 255, of the base pixel
(made fully opaque) with the palette color of the resized class label at
that pixel; in particular a white base pixel under mask color (0,0,0)
blends to 127 in each channel. -/
theorem composite_alpha_blend :
    (∀ (f : ResampleFilter) (b : RGBImage) (t : Tensor2)
        (msk : GrayImage) (cmp : RGBAImage),
      resizedMask f b t = some msk →
      (display_segmentation f b t).1 = some cmp →
      ∀ y x, cmp.pix y x =
        alphaCompositePixel (withAlpha (b.pix y x) 255)
          (withAlpha (colors.getD (msk.pix y x) ⟨0, 0, 0⟩) 128)) ∧
    alphaCompositePixel ⟨255, 255, 255, 255⟩ ⟨0, 0, 0, 128⟩ =
      ⟨127, 127, 127, 255⟩ := by
  constructor
  · intro f b t msk cmp hm hc y x
    rw [display_eq, hm] at hc
    cases hc
    rfl
  · decide

/-- Witness for C2: on a 1 by 1 white base with an all-zero label grid,
the composite pixel is the blend of the opaque base pixel with the
class-0 palette color at alpha 128. -/
theorem composite_alpha_blend_witness :
    wCmp.pix 0 0 =
      alphaCompositePixel (withAlpha (wBase.pix 0 0) 255)
        (withAlpha (colors.getD ((fromarray wGrid.byte).pix 0 0) ⟨0, 0, 0⟩)
          128) :=
  composite_alpha_blend.1 wF wBase wGrid (fromarray wGrid.byte) wCmp
    rfl rfl 0 0

/-- C3: the composite returned by display_segmentation always has the
spatial dimensions of the base image, whatever the resolution of the
label grid. -/
theorem composite_dimensions :
    ∀ (f : ResampleFilter) (b : RGBImage) (t : Tensor2) (cmp : RGBAImage),
      (display_segmentation f b t).1 = some cmp →
      cmp.width = b.width ∧ cmp.height = b.height := by
  intro f b t cmp hc
  rw [display_eq] at hc
  cases hm : resizedMask f b t with
  | none => rw [hm] at hc; cases hc
  | some msk =>
    rw [hm] at hc
    cases hc
    exact ⟨rfl, rfl⟩

/-- Witness for C3 on the concrete 1 by 1 inputs. -/
theorem composite_dimensions_witness :
    wCmp.width = wBase.width ∧ wCmp.height = wBase.height :=
  composite_dimensions wF wBase wGrid wCmp rfl

/-- C6: display_segmentation is deterministic; two invocations on the
same filter, base image and label grid yield identical results. -/
theorem display_deterministic :
    ∀ (f : ResampleFilter) (b : RGBImage) (t : Tensor2),
      display_segmentation f b t = display_segmentation f b t :=
  fun _ _ _ => rfl

/-- C7: display_segmentation leaves its inputs unchanged; the base image
and the label grid it returns alongside the composite are exactly the
arguments (the base image is copied before an alpha channel is attached,
and the prediction tensor is only read). -/
theorem display_inputs_unchanged :
    ∀ (f : ResampleFilter) (b : RGBImage) (t : Tensor2),
      (display_segmentation f b t).2.1 = b ∧
        (display_segmentation f b t).2.2 = t := by
  intro f b t
  unfold display_segmentation
  cases (fromarray t.byte).resize (b.width, b.height) f
  · exact ⟨rfl, rfl⟩
  · exact ⟨rfl, rfl⟩

/-- Counterexample to C5: on an empty (0 by 0) label grid with a 1 by 1
base image, display_segmentation does not fail; it returns a composite. -/
theorem empty_grid_returns_composite :
    ((display_segmentation wF wBase wEmptyGrid).1).isSome = true := rfl

/-- C5 (amended): display_segmentation performs no input validation of
its own.  It returns a composite exactly when the label grid already has
the size of the base image or the base image has positive area; in the
remaining case (zero-area base image with a grid of a different size) the
resize call of the imaging library fails -- there is no InvalidInput
check, and an empty label grid alone causes no failure. -/
theorem composite_exists_iff :
    ∀ (f : ResampleFilter) (b : RGBImage) (t : Tensor2),
      ((display_segmentation f b t).1).isSome = true ↔
        (t.width = b.width ∧ t.height = b.height) ∨
          (0 < b.width ∧ 0 < b.height) :=
  display_isSome

/-- C8: display_segmentation converts the copied base image to carry a
fully opaque alpha channel (255 everywhere), sets the uniform alpha 128
on the whole palette-mapped resized mask layer, and returns their alpha
composite, an image that carries an alpha channel. -/
theorem alpha_pipeline :
    ∀ (f : ResampleFilter) (b : RGBImage) (t : Tensor2),
      (∀ y x, (((b.copy).putalpha 255).pix y x).a = 255) ∧
      (∀ (msk : GrayImage) y x,
        ((((msk.putpalette colors).convertRGBA).putalpha 128).pix y x).a =
          128) ∧
      (∀ (msk : GrayImage), resizedMask f b t = some msk →
        (display_segmentation f b t).1 =
          alpha_composite ((b.copy).putalpha 255)
            (((msk.putpalette colors).convertRGBA).putalpha 128)) := by
  intro f b t
  refine ⟨fun y x => rfl, fun msk y x => rfl, fun msk hm => ?_⟩
  have hsz := resize_size _ _ _ _ hm
  rw [display_eq, hm, composite_step b msk hsz.1 hsz.2]
  rfl

/-- Witness for C8 on the concrete 1 by 1 inputs: the returned composite
is the alpha composite of the opaque base with the alpha-128 mask
layer. -/
theorem alpha_pipeline_witness :
    (display_segmentation wF wBase wGrid).1 =
      alpha_composite ((wBase.copy).putalpha 255)
        ((((fromarray wGrid.byte).putpalette colors).convertRGBA).putalpha
          128) :=
  (alpha_pipeline wF wBase wGrid).2.2 (fromarray wGrid.byte) rfl

/-- C9: the color table holds only 21 defined entries; every label value
v with 21 <= v <= 255 resolves to the padding color (0,0,0) -- the same
color the table assigns to class 0 -- and label values never cause
display_segmentation to fail: whether a composite is produced does not
depend on the values stored in the grid. -/
theorem out_of_range_labels_black : ∀ v : Nat, 21 ≤ v → v ≤ 255 →
    colors.length = 21 ∧
    (∀ g : GrayImage,
      (g.putpalette colors).palette v = ⟨0, 0, 0⟩ ∧
        (g.putpalette colors).palette v = (g.putpalette colors).palette 0) ∧
    (∀ (f : ResampleFilter) (b : RGBImage) (t : Tensor2),
      ((display_segmentation f b t).1).isSome =
        ((display_segmentation f b ⟨t.height, t.width, fun _ _ => 0⟩).1).isSome)
    := by
  intro v hv _
  have hlen : colors.length = 21 := by decide
  have hpad : ∀ g : GrayImage, (g.putpalette colors).palette v = ⟨0, 0, 0⟩ := by
    intro g
    show colors.getD v ⟨0, 0, 0⟩ = ⟨0, 0, 0⟩
    exact List.getD_eq_default _ _ (by omega)
  refine ⟨hlen, fun g => ⟨hpad g, ?_⟩, fun f b t => ?_⟩
  · rw [hpad g]
    rfl
  · have h1 := display_isSome f b t
    have h2 := display_isSome f b ⟨t.height, t.width, fun _ _ => 0⟩
    cases hb1 : ((display_segmentation f b t).1).isSome with
    | true =>
      rw [hb1] at h1
      cases hb2 : ((display_segmentation f b
          ⟨t.height, t.width, fun _ _ => 0⟩).1).isSome with
      | true => rfl
      | false =>
        rw [hb2] at h2
        exact absurd (h2.2 (h1.1 rfl)) (by simp)
    | false =>
      rw [hb1] at h1
      cases hb2 : ((display_segmentation f b
          ⟨t.height, t.width, fun _ _ => 0⟩).1).isSome with
      | true =>
        rw [hb2] at h2
        exact absurd (h1.2 (h2.1 rfl)) (by simp)
      | false => rfl

/-- Witness for C9 at the concrete out-of-range label value 21. -/
theorem out_of_range_labels_black_witness :
    (wGray.putpalette colors).palette 21 = ⟨0, 0, 0⟩ :=
  ((out_of_range_labels_black 21 (by decide) (by decide)).2.1 wGray).1

/-- C10: the label grid is cast to unsigned 8-bit before any palette
lookup, so every entry is reduced mod 256 and the composite rendered for
a grid equals the composite rendered for the same grid with every value
replaced by its residue mod 256. -/
theorem labels_reduced_mod256 :
    ∀ (f : ResampleFilter) (b : RGBImage) (t : Tensor2),
      (∀ y x, (t.byte).val y x = t.val y x % 256) ∧
      (display_segmentation f b t).1 =
        (display_segmentation f b
          ⟨t.height, t.width, fun y x => t.val y x % 256⟩).1 := by
  intro f b t
  refine ⟨fun y x => rfl, ?_⟩
  have hb : Tensor2.byte t =
      Tensor2.byte ⟨t.height, t.width, fun y x => t.val y x % 256⟩ := by
    unfold Tensor2.byte
    congr 1
    funext y x
    show t.val y x % 256 = t.val y x % 256 % 256
    omega
  rw [display_eq, display_eq]
  unfold resizedMask
  rw [hb]

end Seg
